import Mathlib

/-
Verification development for the layer-wise relevance propagation (LRP)
engine of this repository (captum/attr/_core/layer_wise_relevance_propagation.py
and captum/attr/_core/layer/layer_lrp.py).

The engine is shallowly embedded: the Python module tree becomes an inductive
tree, tensors become batches of integer rows (the leading dimension is the
batch), the external automatic-differentiation runtime becomes a record of
opaque functions (the source treats it as an external collaborator), and the
hook bookkeeping of one attribute call becomes an explicit hook-state value
threaded through the pipeline.
-/

namespace Captum

/-- Structural kind of a leaf layer (the Python class of the module). -/
inductive LayerKind where
  | maxPool2d
  | conv2d
  | avgPool2d
  | adaptiveAvgPool2d
  | linear
  | batchNorm2d
  | relu
  | sigmoid
  | tanh
  | dropout
deriving DecidableEq, Repr

/-- The two concrete propagation-rule variants used by the registry. -/
inductive RuleKind where
  | epsilonRule
  | alpha1Beta0Rule
deriving DecidableEq, Repr

/-- Embeds the module-level dictionary SUPPORTED_LINEAR_LAYERS: layer kind to
propagation-rule constructor (none for kinds absent from the dictionary). -/
def SUPPORTED_LINEAR_LAYERS : LayerKind → Option RuleKind
  | .maxPool2d => some .epsilonRule
  | .conv2d => some .alpha1Beta0Rule
  | .avgPool2d => some .epsilonRule
  | .adaptiveAvgPool2d => some .epsilonRule
  | .linear => some .alpha1Beta0Rule
  | .batchNorm2d => some .epsilonRule
  | _ => none

/-- Embeds the module-level list SUPPORTED_NON_LINEAR_LAYERS. -/
def SUPPORTED_NON_LINEAR_LAYERS : List LayerKind := [.relu]

/-- Modelled from the spec: lrp_rules.py is not under src. Per section 4.3 of
the spec, the alpha-beta decomposition rule manipulates weights (it is a
PropagationRule_ManipulateModules) while the epsilon rule needs no weight
manipulation. -/
def manipulatesModules : RuleKind → Bool
  | .alpha1Beta0Rule => true
  | .epsilonRule => false

/-- A Python module: its layer kind together with its children modules.
A module with an empty children list is a leaf layer. -/
inductive PyModule where
  | mk (kind : LayerKind) (children : List PyModule)

/-- Children accessor, mirroring module.children(). -/
def PyModule.children : PyModule → List PyModule
  | .mk _ cs => cs

/-- The message of the TypeError raised by LRP._get_layers. -/
def invalidActivationMsg : String :=
  "Invalid activation used. Implementation is only valid for ReLU activations."

/-- Embeds LRP._get_layers restricted to a list of children: a child with no
children of its own is a leaf and is appended (raising TypeError on sigmoid
and tanh leaves), a child with children is descended into recursively. -/
def getLayersList : List PyModule → Except String (List LayerKind)
  | [] => .ok []
  | .mk k [] :: rest =>
    if k = .sigmoid ∨ k = .tanh then .error invalidActivationMsg
    else do
      let r ← getLayersList rest
      .ok (k :: r)
  | .mk _ (c :: cs) :: rest => do
    let inner ← getLayersList (c :: cs)
    let r ← getLayersList rest
    .ok (inner ++ r)

/-- The leaf layer kinds of a children forest, in traversal order, with no
validity check (specification-side flattening used to state claims). -/
def leafKindsList : List PyModule → List LayerKind
  | [] => []
  | .mk k [] :: rest => k :: leafKindsList rest
  | .mk _ (c :: cs) :: rest => leafKindsList (c :: cs) ++ leafKindsList rest

/-- Embeds the call self._get_layers(model) on the root model. -/
def getLayers (m : PyModule) : Except String (List LayerKind) :=
  getLayersList m.children

/-- The leaf layers the traversal of a root model visits. -/
def leafKinds (m : PyModule) : List LayerKind :=
  leafKindsList m.children

theorem getLayersList_errMsg (ms : List PyModule) :
    ∀ e, getLayersList ms = .error e → e = invalidActivationMsg := by
  induction ms using getLayersList.induct with
  | case1 =>
    intro e he
    simp [getLayersList] at he
  | case2 k rest hk =>
    intro e he
    rw [getLayersList, if_pos hk] at he
    cases he
    rfl
  | case3 k rest hk ih =>
    intro e he
    rw [getLayersList, if_neg hk] at he
    cases hrest : getLayersList rest with
    | error e2 =>
      rw [hrest] at he
      cases he
      exact ih _ hrest
    | ok l =>
      rw [hrest] at he
      cases he
  | case4 k c cs rest ih1 ih2 =>
    intro e he
    rw [getLayersList] at he
    cases hinner : getLayersList (c :: cs) with
    | error e1 =>
      rw [hinner] at he
      cases he
      exact ih1 e hinner
    | ok l =>
      rw [hinner] at he
      cases hrest : getLayersList rest with
      | error e2 =>
        rw [hrest] at he
        cases he
        exact ih2 _ hrest
      | ok l2 =>
        rw [hrest] at he
        cases he

theorem getLayersList_error (ms : List PyModule)
    (h : LayerKind.sigmoid ∈ leafKindsList ms ∨ LayerKind.tanh ∈ leafKindsList ms) :
    getLayersList ms = .error invalidActivationMsg := by
  induction ms using getLayersList.induct with
  | case1 =>
    simp [leafKindsList] at h
  | case2 k rest hk =>
    rw [getLayersList, if_pos hk]
  | case3 k rest hk ih =>
    rw [leafKindsList] at h
    have hrest : LayerKind.sigmoid ∈ leafKindsList rest ∨ LayerKind.tanh ∈ leafKindsList rest := by
      rcases h with h | h
      · rcases List.mem_cons.mp h with h | h
        · exact absurd (Or.inl h.symm) hk
        · exact Or.inl h
      · rcases List.mem_cons.mp h with h | h
        · exact absurd (Or.inr h.symm) hk
        · exact Or.inr h
    rw [getLayersList, if_neg hk, ih hrest]
    rfl
  | case4 k c cs rest ih1 ih2 =>
    rw [leafKindsList] at h
    rw [getLayersList]
    have hsplit : (LayerKind.sigmoid ∈ leafKindsList (c :: cs) ∨ LayerKind.tanh ∈ leafKindsList (c :: cs)) ∨
        (LayerKind.sigmoid ∈ leafKindsList rest ∨ LayerKind.tanh ∈ leafKindsList rest) := by
      rcases h with h | h
      · rcases List.mem_append.mp h with h | h
        · exact Or.inl (Or.inl h)
        · exact Or.inr (Or.inl h)
      · rcases List.mem_append.mp h with h | h
        · exact Or.inl (Or.inr h)
        · exact Or.inr (Or.inr h)
    rcases hsplit with h | h
    · rw [ih1 h]
      rfl
    · cases hinner : getLayersList (c :: cs) with
      | error e1 =>
        rw [getLayersList_errMsg (c :: cs) e1 hinner]
        rfl
      | ok l =>
        rw [ih2 h]
        rfl

/-- A tensor: a batch of flattened integer feature rows (outer list is the
batch dimension, as the source assumes for every input tensor). -/
abbrev Tensor := List (List ℤ)

/-- The shape of a tensor: batch entry lengths (batch size is the list length). -/
def Tensor.shape (t : Tensor) : List Nat := t.map List.length

/-- torch.sum over a whole tensor. -/
def Tensor.total (t : Tensor) : ℤ := (t.map List.sum).sum

/-- Element-wise product of two tensors (torch mul on same-shape tensors). -/
def emul (a b : Tensor) : Tensor := List.zipWith (List.zipWith (· * ·)) a b

/-- Multiply each example row of a tensor by the per-example scalar of the
model output (the broadcasted product with the selected model output). -/
def scaleByOutput (t : Tensor) (s : List ℤ) : Tensor :=
  List.zipWith (fun row c => row.map (fun x => x * c)) t s

/-- A Python value returned by attribute: a tensor, a Python list of tensors
(the return_for_all_layers sequence), or a tuple. -/
inductive PyVal where
  | tensor (t : Tensor)
  | pyList (l : List Tensor)
  | tuple (l : List PyVal)

/-- The attribute argument inputs: a single tensor or a tuple of tensors. -/
inductive Inputs where
  | single (t : Tensor)
  | tuple (ts : List Tensor)

/-- Mirrors isinstance(inputs, tuple). -/
def Inputs.isTuple : Inputs → Bool
  | .single _ => false
  | .tuple _ => true

/-- Modelled from the spec: the formatting helper of captum/attr/_utils/common.py
is not under src. Per section 6 of the spec, inputs are treated as an ordered
tuple of arrays; a single array becomes a one-element tuple. -/
def formatInput : Inputs → List Tensor
  | .single t => [t]
  | .tuple ts => ts

/-- Modelled from the spec: the formatting helper of captum/attr/_utils/common.py
is not under src. Per section 6 of the spec, attribute returns a single array
if inputs was a single array and a tuple otherwise. -/
def formatAttributions (isInputsTuple : Bool) (attributions : List PyVal) : PyVal :=
  if isInputsTuple then .tuple attributions else attributions.headD (.tensor [])

/-- The model owned by the caller: its module tree and an abstract parameter
vector standing for all layer weights (mutable only transiently inside one
attribute call, on the deep copy). -/
structure Model where
  root : PyModule
  weights : List ℤ

/-- The external automatic-differentiation runtime, an external collaborator
per section 1 of the spec: forward evaluation with target selection,
per-input raw gradients, the output-side relevance a rule backward hook
records for a layer index, the effect of one weight-manipulation forward
pass, and each layer output shape. -/
structure Runtime where
  runForward : PyModule → List ℤ → List Tensor → Option Nat → List ℤ
  computeGradients : PyModule → List ℤ → List Tensor → Option Nat → Except String (List Tensor)
  layerRelevance : PyModule → List ℤ → List Tensor → Option Nat → Nat → Tensor
  manipulateWeights : List ℤ → List ℤ
  layerOutputShape : PyModule → List Tensor → Nat → List Nat

/-- What a registered hook is for, recording which rule instance it closes
over (the rule whose bound method was registered). -/
inductive HookTag where
  | forwardRule (r : RuleKind)
  | relevanceRecorder (r : RuleKind)
  | activationPassthrough (r : RuleKind)
  | weightHook (r : RuleKind)
  | preHook (r : RuleKind)
deriving DecidableEq, Repr

/-- A live hook registration on the model. -/
structure Hook where
  id : Nat
  tag : HookTag
deriving DecidableEq, Repr

/-- The hook bookkeeping of one attribute call: the registrations currently
installed on the model, the engine handle lists self.forward_handles and
self.backward_handles, and a fresh-id counter. -/
structure HookSt where
  nextId : Nat
  active : List Hook
  fwdHandles : List Nat
  bwdHandles : List Nat
deriving DecidableEq, Repr

/-- The hook state at the start of an attribute call. -/
def initHookSt : HookSt := ⟨0, [], [], []⟩

/-- Install one hook: it becomes active and its handle is appended to
self.forward_handles (toBwd false) or self.backward_handles (toBwd true). -/
def registerHook (s : HookSt) (tag : HookTag) (toBwd : Bool) : HookSt :=
  { nextId := s.nextId + 1
    active := ⟨s.nextId, tag⟩ :: s.active
    fwdHandles := if toBwd then s.fwdHandles else s.nextId :: s.fwdHandles
    bwdHandles := if toBwd then s.nextId :: s.bwdHandles else s.bwdHandles }

/-- Embeds LRP._remove_forward_hooks: every handle in self.forward_handles is
removed from the model (handle removal is idempotent; the list is kept). -/
def removeForwardHooks (s : HookSt) : HookSt :=
  { s with active := s.active.filter (fun h => !(s.fwdHandles.contains h.id)) }

/-- Embeds the engine part of LRP._remove_backward_hooks: every handle in
self.backward_handles is removed from the model. -/
def removeBackwardHooks (s : HookSt) : HookSt :=
  { s with active := s.active.filter (fun h => !(s.bwdHandles.contains h.id)) }

/-- The message of the UnboundLocalError raised when the backward pass-through
hook of an activation layer is registered before any rule layer was seen. -/
def unboundLocalMsg : String :=
  "UnboundLocalError: local variable rule referenced before assignment"

/-- Embeds LRP._register_forward_hooks. The accumulator carries the local
variable rule of the Python loop: it is assigned only in the supported-linear
branch, the activation branch reads it (raising UnboundLocalError when it was
never assigned), and unsupported kinds only print a warning. On failure the
hook state installed so far is part of the error. -/
def registerForwardHooksAux (rfa : Bool) :
    Option RuleKind → List LayerKind → HookSt →
      Except (HookSt × String) (HookSt × Option RuleKind)
  | rule, [], s => .ok (s, rule)
  | rule, k :: rest, s =>
    match SUPPORTED_LINEAR_LAYERS k with
    | some rk =>
      let s1 := registerHook s (.forwardRule rk) false
      let s2 := if rfa then registerHook s1 (.relevanceRecorder rk) true else s1
      registerForwardHooksAux rfa (some rk) rest s2
    | none =>
      if k ∈ SUPPORTED_NON_LINEAR_LAYERS then
        match rule with
        | none => .error (s, unboundLocalMsg)
        | some rk =>
          registerForwardHooksAux rfa (some rk) rest
            (registerHook s (.activationPassthrough rk) true)
      else
        registerForwardHooksAux rfa rule rest s

/-- Embeds LRP._register_weight_hooks: a forward hook per layer whose rule is
a PropagationRule_ManipulateModules. -/
def registerWeightHooks (layers : List LayerKind) (s : HookSt) : HookSt :=
  layers.foldl
    (fun s k =>
      match SUPPORTED_LINEAR_LAYERS k with
      | some rk => if manipulatesModules rk then registerHook s (.weightHook rk) false else s
      | none => s)
    s

/-- Embeds LRP._register_pre_hooks: a pre-forward hook per layer whose rule is
a PropagationRule_ManipulateModules, appended to self.forward_handles. -/
def registerPreHooks (layers : List LayerKind) (s : HookSt) : HookSt :=
  layers.foldl
    (fun s k =>
      match SUPPORTED_LINEAR_LAYERS k with
      | some rk => if manipulatesModules rk then registerHook s (.preHook rk) false else s
      | none => s)
    s

/-- The hook state after LRP._change_weights: weight hooks installed, a
forward pass run, forward hooks removed, pre-forward hooks installed. -/
def hooksAfterWeightPass (layers : List LayerKind) : HookSt :=
  registerPreHooks layers (removeForwardHooks (registerWeightHooks layers initHookSt))

/-- Whether any traversed layer carries a weight-manipulating rule, so that
the weight-manipulation forward pass of LRP._change_weights actually changes
the weights of the engine copy. -/
def anyManipulating (layers : List LayerKind) : Bool :=
  layers.any (fun k => ((SUPPORTED_LINEAR_LAYERS k).map manipulatesModules).getD false)

/-- The engine-copy weights after LRP._change_weights. -/
def engineWeights (rt : Runtime) (layers : List LayerKind) (w : List ℤ) : List ℤ :=
  if anyManipulating layers then rt.manipulateWeights w else w

/-- The relevance attribute each traversed layer carries after the backward
pass: with return_for_all_layers, every layer with a registered rule got a
relevance-recording backward hook (the rule method _backward_hook_relevance,
which per section 4.3 of the spec attaches the output-side relevance to the
layer), all other layers have no relevance attribute. -/
def recordedRelevances (rt : Runtime) (root : PyModule) (w : List ℤ)
    (xs : List Tensor) (tg : Option Nat) (rfa : Bool) (layers : List LayerKind) :
    List (Option Tensor) :=
  (List.range layers.length).map
    (fun i =>
      if rfa && (SUPPORTED_LINEAR_LAYERS (layers.getD i .relu)).isSome then
        some (rt.layerRelevance root w xs tg i)
      else none)

/-- Embeds the loop body of LRP._select_layer_output for return_for_all_layers:
start from the input-level relevance tensors and, per traversed layer, append
the layer relevance attribute if the layer has one, else the last entry. -/
def selectAll (rels : List Tensor) (recorded : List (Option Tensor)) : List Tensor :=
  recorded.foldl (fun acc o => acc ++ [o.getD (acc.getLastD [])]) rels

/-- Embeds LRP._select_layer_output: with return_for_all_layers the built
sequence is returned as a one-element tuple holding a Python list, else the
input-level relevance tuple is returned unchanged. -/
def selectLayerOutput (rfa : Bool) (rels : List Tensor) (recorded : List (Option Tensor)) :
    List PyVal :=
  if rfa then [.pyList (selectAll rels recorded)] else rels.map .tensor

/-- The message of the TypeError torch.sum raises when handed the Python
list that _select_layer_output builds in the return_for_all_layers mode. -/
def listSumTypeErrorMsg : String :=
  "TypeError: torch.sum does not accept a Python list"

/-- The message of the IndexError raised when relevances has no element 0. -/
def indexErrorMsg : String :=
  "IndexError: index 0 is out of range"

/-- torch.sum applied to relevances[0], the first element of the selection
result: the total over a tensor in the plain mode; in the
return_for_all_layers mode the first element is a Python list and torch.sum
raises a TypeError; an empty selection raises an IndexError. -/
def headAttributionSum : List PyVal → Except String ℤ
  | .tensor t :: _ => .ok t.total
  | .pyList _ :: _ => .error listSumTypeErrorMsg
  | .tuple _ :: _ => .error listSumTypeErrorMsg
  | [] => .error indexErrorMsg

/-- Embeds LRP.compute_convergence_delta: one scalar, the total sum of the
re-run forward output minus the total sum of the given attributions. -/
def compute_convergence_delta (rt : Runtime) (root : PyModule) (w : List ℤ)
    (xs : List Tensor) (tg : Option Nat) (attributionsSum : ℤ) : ℤ :=
  (rt.runForward root w xs tg).sum - attributionsSum

/-- The outcome of one attribute call: its return value or raised error, the
hook state when control leaves the call, the caller model after the call, the
engine deep copy after the call, and the input-level relevance tensors the
call computed from the raw gradients (the local variable relevances right
after the gradient multiplication). -/
structure AttrOutcome where
  result : Except String (PyVal × Option ℤ)
  hookSt : HookSt
  callerModel : Model
  engineModel : Model
  inputLevelRelevances : List Tensor

/-- The arguments of one attribute call. -/
structure AttrArgs where
  inputs : Inputs
  target : Option Nat
  returnConvergenceDelta : Bool
  returnForAllLayers : Bool

/-- The input-level relevance tensors LRP.attribute computes: the raw
per-input gradient times the input tensor times the model output computed
before the weight pass (relevance * input * output in the source). -/
def lrpRels (rt : Runtime) (model : Model) (args : AttrArgs) (gs : List Tensor) :
    List Tensor :=
  List.zipWith
    (fun g x =>
      scaleByOutput (emul g x)
        (rt.runForward model.root model.weights (formatInput args.inputs) args.target))
    gs (formatInput args.inputs)

/-- The selection LRP.attribute hands to the output formatting. -/
def lrpSel (rt : Runtime) (model : Model) (args : AttrArgs) (layers : List LayerKind)
    (gs : List Tensor) : List PyVal :=
  selectLayerOutput args.returnForAllLayers (lrpRels rt model args gs)
    (recordedRelevances rt model.root (engineWeights rt layers model.weights)
      (formatInput args.inputs) args.target args.returnForAllLayers layers)

/-- The successful tail of LRP.attribute after gradient computation: multiply
gradients, remove backward then forward hooks, select the output, and either
return it formatted, or, when a convergence delta is requested, first sum
relevances[0] with torch.sum — which succeeds on a tensor but raises a
TypeError on the Python list of the return_for_all_layers mode — and return
the pair of formatted attributions and delta (computed against the engine
copy, whose weights the weight pass may have changed). -/
def lrpFinish (rt : Runtime) (model : Model) (args : AttrArgs) (layers : List LayerKind)
    (s4 : HookSt) (gs : List Tensor) : AttrOutcome :=
  { result :=
      if args.returnConvergenceDelta then
        match headAttributionSum (lrpSel rt model args layers gs) with
        | .error e => .error e
        | .ok a =>
          .ok (formatAttributions args.inputs.isTuple (lrpSel rt model args layers gs),
            some (compute_convergence_delta rt model.root
              (engineWeights rt layers model.weights) (formatInput args.inputs)
              args.target a))
      else .ok (formatAttributions args.inputs.isTuple (lrpSel rt model args layers gs), none)
    hookSt := removeForwardHooks (removeBackwardHooks s4)
    callerModel := model
    engineModel := ⟨model.root, engineWeights rt layers model.weights⟩
    inputLevelRelevances := lrpRels rt model args gs }

/-- LRP.attribute from gradient computation on: a failure inside the external
differentiation runtime propagates to the caller with the hooks still
installed (the source has no cleanup handler around compute_gradients). -/
def lrpStage3 (rt : Runtime) (model : Model) (args : AttrArgs) (layers : List LayerKind)
    (s4 : HookSt) : AttrOutcome :=
  match rt.computeGradients model.root (engineWeights rt layers model.weights)
      (formatInput args.inputs) args.target with
  | .error e =>
    { result := .error e
      hookSt := s4
      callerModel := model
      engineModel := ⟨model.root, engineWeights rt layers model.weights⟩
      inputLevelRelevances := [] }
  | .ok gs => lrpFinish rt model args layers s4 gs

/-- LRP.attribute from hook registration on: the initial forward output was
already evaluated, the weight pass ran, and the per-layer forward (and, with
return_for_all_layers, backward) hooks are being installed. -/
def lrpStage2 (rt : Runtime) (model : Model) (args : AttrArgs) (layers : List LayerKind) :
    AttrOutcome :=
  match registerForwardHooksAux args.returnForAllLayers none layers
      (hooksAfterWeightPass layers) with
  | .error (sErr, e) =>
    { result := .error e
      hookSt := sErr
      callerModel := model
      engineModel := ⟨model.root, engineWeights rt layers model.weights⟩
      inputLevelRelevances := [] }
  | .ok (s4, _) => lrpStage3 rt model args layers s4

/-- Embeds LRP.attribute: deep-copy the model, re-run the traversal (raising
on sigmoid and tanh leaves before anything else happens), run the forward
pass, the weight-manipulation pass and hook registration, compute gradients,
multiply, tear hooks down, select and format, optionally with delta. Every
mutation acts on the engine copy; the caller model field is the object the
caller passed in. -/
def lrpAttribute (rt : Runtime) (model : Model) (args : AttrArgs) : AttrOutcome :=
  match getLayers model.root with
  | .error e =>
    { result := .error e
      hookSt := initHookSt
      callerModel := model
      engineModel := model
      inputLevelRelevances := [] }
  | .ok layers => lrpStage2 rt model args layers

/-- Embeds LRP.__init__ as far as model validation goes: it stores the model
and immediately runs self._get_layers(model), so an invalid activation makes
construction itself raise. -/
def lrpInit (model : Model) : Except String (List LayerKind) :=
  getLayers model.root

/-- The message of the AttributeError raised by LayerLRP._select_layer_output
when the designated layer never got a relevance attribute recorded. -/
def noRelevanceMsg : String :=
  "AttributeError: layer object has no attribute relevance"

/-- The input-level relevance tensors LayerLRP.attribute computes: the raw
per-input gradient times the input tensor, with no model-output factor
(relevance * input in the source). -/
def layerLrpRels (args : AttrArgs) (gs : List Tensor) : List Tensor :=
  List.zipWith (fun g x => emul g x) gs (formatInput args.inputs)

/-- The successful tail of LayerLRP.attribute: multiply gradients by inputs,
tear hooks down, and return the relevance attribute recorded on the one
designated layer (LayerLRP._select_layer_output), raising when that layer
has none. When a convergence delta is requested, the source passes
relevances[0] — the first batch row of the recorded tensor — to
compute_convergence_delta, raising an IndexError on an empty tensor. The
parts of LayerLRP.attribute whose code is not under src
(_get_rules, _check_if_weights_are_changed, _remove_rules and the
original_model attribute) are modelled from the spec, section 4.5: an
identical state machine up to the final selection step. -/
def layerLrpFinish (rt : Runtime) (model : Model) (layerIdx : Nat) (args : AttrArgs)
    (layers : List LayerKind) (s4 : HookSt) (gs : List Tensor) : AttrOutcome :=
  let w1 := engineWeights rt layers model.weights
  let sFinal := removeForwardHooks (removeBackwardHooks s4)
  match (recordedRelevances rt model.root w1 (formatInput args.inputs) args.target
      args.returnForAllLayers layers).getD layerIdx none with
  | none =>
    { result := .error noRelevanceMsg
      hookSt := sFinal
      callerModel := model
      engineModel := ⟨model.root, w1⟩
      inputLevelRelevances := layerLrpRels args gs }
  | some t =>
    { result :=
        if args.returnConvergenceDelta then
          match t with
          | [] => .error indexErrorMsg
          | row :: _ =>
            .ok (.tensor t, some (compute_convergence_delta rt model.root w1
              (formatInput args.inputs) args.target row.sum))
        else .ok (.tensor t, none)
      hookSt := sFinal
      callerModel := model
      engineModel := ⟨model.root, w1⟩
      inputLevelRelevances := layerLrpRels args gs }

/-- LayerLRP.attribute from gradient computation on. -/
def layerLrpStage3 (rt : Runtime) (model : Model) (layerIdx : Nat) (args : AttrArgs)
    (layers : List LayerKind) (s4 : HookSt) : AttrOutcome :=
  match rt.computeGradients model.root (engineWeights rt layers model.weights)
      (formatInput args.inputs) args.target with
  | .error e =>
    { result := .error e
      hookSt := s4
      callerModel := model
      engineModel := ⟨model.root, engineWeights rt layers model.weights⟩
      inputLevelRelevances := [] }
  | .ok gs => layerLrpFinish rt model layerIdx args layers s4 gs

/-- LayerLRP.attribute from hook registration on (the inherited
LRP._register_forward_hooks). -/
def layerLrpStage2 (rt : Runtime) (model : Model) (layerIdx : Nat) (args : AttrArgs)
    (layers : List LayerKind) : AttrOutcome :=
  match registerForwardHooksAux args.returnForAllLayers none layers
      (hooksAfterWeightPass layers) with
  | .error (sErr, e) =>
    { result := .error e
      hookSt := sErr
      callerModel := model
      engineModel := ⟨model.root, engineWeights rt layers model.weights⟩
      inputLevelRelevances := [] }
  | .ok (s4, _) => layerLrpStage3 rt model layerIdx args layers s4

/-- Embeds LayerLRP.attribute: deep-copy the original model, re-run the
traversal (raising on sigmoid and tanh leaves), run the weight pass and hook
registration, compute gradients, multiply by the inputs, tear hooks down and
return the relevance recorded on the designated layer. -/
def layerLrpAttribute (rt : Runtime) (model : Model) (layerIdx : Nat) (args : AttrArgs) :
    AttrOutcome :=
  match getLayers model.root with
  | .error e =>
    { result := .error e
      hookSt := initHookSt
      callerModel := model
      engineModel := model
      inputLevelRelevances := [] }
  | .ok layers => layerLrpStage2 rt model layerIdx args layers

/-- Specification-side: hook registration reaches no activation layer before a
rule layer, so the Python local variable rule is always bound when read. -/
def activationSafe : Option RuleKind → List LayerKind → Bool
  | _, [] => true
  | r, k :: rest =>
    match SUPPORTED_LINEAR_LAYERS k with
    | some rk => activationSafe (some rk) rest
    | none =>
      if k ∈ SUPPORTED_NON_LINEAR_LAYERS then r.isSome && activationSafe r rest
      else activationSafe r rest

/-- Specification-side: the rule instance created for the most recent
preceding redistribution-rule layer, starting from an initial binding. -/
def lastRuleOf : Option RuleKind → List LayerKind → Option RuleKind
  | r, [] => r
  | r, k :: rest =>
    match SUPPORTED_LINEAR_LAYERS k with
    | some rk => lastRuleOf (some rk) rest
    | none => lastRuleOf r rest

theorem registerForwardHooksAux_ok (rfa : Bool) (layers : List LayerKind) :
    ∀ r s, activationSafe r layers = true →
      ∃ s2, registerForwardHooksAux rfa r layers s = .ok (s2, lastRuleOf r layers) := by
  induction layers with
  | nil =>
    intro r s _
    exact ⟨s, rfl⟩
  | cons k rest ih =>
    intro r s hsafe
    rw [activationSafe] at hsafe
    simp only [registerForwardHooksAux, lastRuleOf]
    cases hk : SUPPORTED_LINEAR_LAYERS k with
    | some rk =>
      rw [hk] at hsafe
      exact ih (some rk) _ hsafe
    | none =>
      rw [hk] at hsafe
      by_cases hmem : k ∈ SUPPORTED_NON_LINEAR_LAYERS
      · rw [if_pos hmem] at hsafe ⊢
        rw [Bool.and_eq_true] at hsafe
        obtain ⟨hsome, hrest⟩ := hsafe
        cases r with
        | none => simp at hsome
        | some rk => exact ih (some rk) _ hrest
      · rw [if_neg hmem] at hsafe ⊢
        exact ih r _ hsafe

theorem registerForwardHooksAux_snd (rfa : Bool) (layers : List LayerKind) :
    ∀ r s s2 r2, registerForwardHooksAux rfa r layers s = .ok (s2, r2) →
      r2 = lastRuleOf r layers := by
  induction layers with
  | nil =>
    intro r s s2 r2 h
    simp only [registerForwardHooksAux] at h
    cases h
    rfl
  | cons k rest ih =>
    intro r s s2 r2 h
    simp only [registerForwardHooksAux] at h
    rw [lastRuleOf]
    cases hk : SUPPORTED_LINEAR_LAYERS k with
    | some rk =>
      rw [hk] at h
      exact ih (some rk) _ _ _ h
    | none =>
      rw [hk] at h
      by_cases hmem : k ∈ SUPPORTED_NON_LINEAR_LAYERS
      · rw [if_pos hmem] at h
        cases r with
        | none => cases h
        | some rk => exact ih (some rk) _ _ _ h
      · rw [if_neg hmem] at h
        exact ih r _ _ _ h

theorem registerForwardHooksAux_append (rfa : Bool) (pre : List LayerKind) :
    ∀ suf r s, registerForwardHooksAux rfa r (pre ++ suf) s =
      (registerForwardHooksAux rfa r pre s).bind
        (fun p => registerForwardHooksAux rfa p.2 suf p.1) := by
  induction pre with
  | nil =>
    intro suf r s
    rw [List.nil_append]
    simp only [registerForwardHooksAux]
    rfl
  | cons k rest ih =>
    intro suf r s
    rw [List.cons_append]
    simp only [registerForwardHooksAux]
    cases hk : SUPPORTED_LINEAR_LAYERS k with
    | some rk =>
      exact ih suf (some rk) _
    | none =>
      by_cases hmem : k ∈ SUPPORTED_NON_LINEAR_LAYERS
      · rw [if_pos hmem, if_pos hmem]
        cases r with
        | none => rfl
        | some rk => exact ih suf (some rk) _
      · rw [if_neg hmem, if_neg hmem]
        exact ih suf r _

/-- Every active registration is tracked by one of the two engine handle
lists (the source stores every created handle in self.forward_handles or
self.backward_handles). -/
def HookInv (s : HookSt) : Prop :=
  ∀ h ∈ s.active, h.id ∈ s.fwdHandles ∨ h.id ∈ s.bwdHandles

theorem hookInv_init : HookInv initHookSt := by
  intro h hh
  simp [initHookSt] at hh

theorem hookInv_register (s : HookSt) (tag : HookTag) (b : Bool) (hs : HookInv s) :
    HookInv (registerHook s tag b) := by
  intro h hh
  rw [registerHook] at hh ⊢
  rcases List.mem_cons.mp hh with hh | hh
  · subst hh
    cases b
    · exact Or.inl (by simp)
    · exact Or.inr (by simp)
  · rcases hs h hh with hid | hid
    · cases b
      · exact Or.inl (by simpa using Or.inr hid)
      · exact Or.inl hid
    · cases b
      · exact Or.inr hid
      · exact Or.inr (by simpa using Or.inr hid)

theorem hookInv_removeForward (s : HookSt) (hs : HookInv s) :
    HookInv (removeForwardHooks s) := by
  intro h hh
  rw [removeForwardHooks] at hh
  exact hs h (List.mem_of_mem_filter hh)

theorem hookInv_removeBackward (s : HookSt) (hs : HookInv s) :
    HookInv (removeBackwardHooks s) := by
  intro h hh
  rw [removeBackwardHooks] at hh
  exact hs h (List.mem_of_mem_filter hh)

theorem hookInv_registerWeightHooks (layers : List LayerKind) :
    ∀ s, HookInv s → HookInv (registerWeightHooks layers s) := by
  induction layers with
  | nil =>
    intro s hs
    exact hs
  | cons k rest ih =>
    intro s hs
    rw [registerWeightHooks] at *
    rw [List.foldl_cons]
    apply ih
    cases hk : SUPPORTED_LINEAR_LAYERS k with
    | some rk =>
      simp only [hk]
      by_cases hm : manipulatesModules rk = true
      · rw [if_pos hm]
        exact hookInv_register _ _ _ hs
      · rw [if_neg hm]
        exact hs
    | none =>
      simp only [hk]
      exact hs

theorem hookInv_registerPreHooks (layers : List LayerKind) :
    ∀ s, HookInv s → HookInv (registerPreHooks layers s) := by
  induction layers with
  | nil =>
    intro s hs
    exact hs
  | cons k rest ih =>
    intro s hs
    rw [registerPreHooks] at *
    rw [List.foldl_cons]
    apply ih
    cases hk : SUPPORTED_LINEAR_LAYERS k with
    | some rk =>
      simp only [hk]
      by_cases hm : manipulatesModules rk = true
      · rw [if_pos hm]
        exact hookInv_register _ _ _ hs
      · rw [if_neg hm]
        exact hs
    | none =>
      simp only [hk]
      exact hs

theorem hookInv_afterWeightPass (layers : List LayerKind) :
    HookInv (hooksAfterWeightPass layers) := by
  rw [hooksAfterWeightPass]
  exact hookInv_registerPreHooks layers _
    (hookInv_removeForward _ (hookInv_registerWeightHooks layers _ hookInv_init))

theorem hookInv_registerForwardHooksAux (rfa : Bool) (layers : List LayerKind) :
    ∀ r s s2 r2, HookInv s →
      registerForwardHooksAux rfa r layers s = .ok (s2, r2) → HookInv s2 := by
  induction layers with
  | nil =>
    intro r s s2 r2 hs h
    rw [registerForwardHooksAux] at h
    cases h
    exact hs
  | cons k rest ih =>
    intro r s s2 r2 hs h
    simp only [registerForwardHooksAux] at h
    cases hk : SUPPORTED_LINEAR_LAYERS k with
    | some rk =>
      rw [hk] at h
      apply ih (some rk) _ _ _ _ h
      by_cases hrfa : rfa = true
      · rw [if_pos hrfa]
        exact hookInv_register _ _ _ (hookInv_register _ _ _ hs)
      · rw [if_neg hrfa]
        exact hookInv_register _ _ _ hs
    | none =>
      rw [hk] at h
      by_cases hmem : k ∈ SUPPORTED_NON_LINEAR_LAYERS
      · rw [if_pos hmem] at h
        cases r with
        | none => cases h
        | some rk =>
          exact ih (some rk) _ _ _ (hookInv_register _ _ _ hs) h
      · rw [if_neg hmem] at h
        exact ih r _ _ _ hs h

theorem hookInv_teardown_empty (s : HookSt) (hs : HookInv s) :
    (removeForwardHooks (removeBackwardHooks s)).active = [] := by
  rw [List.eq_nil_iff_forall_not_mem]
  intro h hh
  rw [removeForwardHooks] at hh
  rcases List.mem_filter.mp hh with ⟨hh2, hnotf⟩
  rw [removeBackwardHooks] at hh2 hnotf
  rcases List.mem_filter.mp hh2 with ⟨hh3, hnotb⟩
  rcases hs h hh3 with hid | hid
  · rw [Bool.not_eq_eq_eq_not, Bool.not_true, List.contains_eq_any_beq] at hnotf
    have : s.fwdHandles.contains h.id = true := List.contains_iff_exists_mem_beq.mpr ⟨h.id, hid, by simp⟩
    rw [List.contains_eq_any_beq] at this
    exact absurd this (by rw [hnotf]; simp)
  · rw [Bool.not_eq_eq_eq_not, Bool.not_true, List.contains_eq_any_beq] at hnotb
    have : s.bwdHandles.contains h.id = true := List.contains_iff_exists_mem_beq.mpr ⟨h.id, hid, by simp⟩
    rw [List.contains_eq_any_beq] at this
    exact absurd this (by rw [hnotb]; simp)

theorem lrpAttribute_layers (rt : Runtime) (model : Model) (args : AttrArgs)
    (layers : List LayerKind) (hL : getLayers model.root = .ok layers) :
    lrpAttribute rt model args = lrpStage2 rt model args layers := by
  rw [lrpAttribute, hL]

theorem lrpStage2_ok (rt : Runtime) (model : Model) (args : AttrArgs)
    (layers : List LayerKind) (s4 : HookSt) (r2 : Option RuleKind)
    (hreg : registerForwardHooksAux args.returnForAllLayers none layers
      (hooksAfterWeightPass layers) = .ok (s4, r2)) :
    lrpStage2 rt model args layers = lrpStage3 rt model args layers s4 := by
  rw [lrpStage2, hreg]

theorem lrpStage3_ok (rt : Runtime) (model : Model) (args : AttrArgs)
    (layers : List LayerKind) (s4 : HookSt) (gs : List Tensor)
    (hg : rt.computeGradients model.root (engineWeights rt layers model.weights)
      (formatInput args.inputs) args.target = .ok gs) :
    lrpStage3 rt model args layers s4 = lrpFinish rt model args layers s4 gs := by
  rw [lrpStage3, hg]

theorem lrpAttribute_error (rt : Runtime) (model : Model) (args : AttrArgs) (e : String)
    (hL : getLayers model.root = .error e) :
    lrpAttribute rt model args =
      { result := .error e
        hookSt := initHookSt
        callerModel := model
        engineModel := model
        inputLevelRelevances := [] } := by
  rw [lrpAttribute, hL]

theorem lrpStage2_error (rt : Runtime) (model : Model) (args : AttrArgs)
    (layers : List LayerKind) (sErr : HookSt) (e : String)
    (hreg : registerForwardHooksAux args.returnForAllLayers none layers
      (hooksAfterWeightPass layers) = .error (sErr, e)) :
    lrpStage2 rt model args layers =
      { result := .error e
        hookSt := sErr
        callerModel := model
        engineModel := ⟨model.root, engineWeights rt layers model.weights⟩
        inputLevelRelevances := [] } := by
  rw [lrpStage2, hreg]

theorem lrpStage3_error (rt : Runtime) (model : Model) (args : AttrArgs)
    (layers : List LayerKind) (s4 : HookSt) (e : String)
    (hg : rt.computeGradients model.root (engineWeights rt layers model.weights)
      (formatInput args.inputs) args.target = .error e) :
    lrpStage3 rt model args layers s4 =
      { result := .error e
        hookSt := s4
        callerModel := model
        engineModel := ⟨model.root, engineWeights rt layers model.weights⟩
        inputLevelRelevances := [] } := by
  rw [lrpStage3, hg]

theorem layerLrpAttribute_error (rt : Runtime) (model : Model) (layerIdx : Nat)
    (args : AttrArgs) (e : String) (hL : getLayers model.root = .error e) :
    layerLrpAttribute rt model layerIdx args =
      { result := .error e
        hookSt := initHookSt
        callerModel := model
        engineModel := model
        inputLevelRelevances := [] } := by
  rw [layerLrpAttribute, hL]

theorem layerLrpAttribute_layers (rt : Runtime) (model : Model) (layerIdx : Nat)
    (args : AttrArgs) (layers : List LayerKind) (hL : getLayers model.root = .ok layers) :
    layerLrpAttribute rt model layerIdx args = layerLrpStage2 rt model layerIdx args layers := by
  rw [layerLrpAttribute, hL]

theorem layerLrpStage2_ok (rt : Runtime) (model : Model) (layerIdx : Nat) (args : AttrArgs)
    (layers : List LayerKind) (s4 : HookSt) (r2 : Option RuleKind)
    (hreg : registerForwardHooksAux args.returnForAllLayers none layers
      (hooksAfterWeightPass layers) = .ok (s4, r2)) :
    layerLrpStage2 rt model layerIdx args layers = layerLrpStage3 rt model layerIdx args layers s4 := by
  rw [layerLrpStage2, hreg]

theorem layerLrpStage3_ok (rt : Runtime) (model : Model) (layerIdx : Nat) (args : AttrArgs)
    (layers : List LayerKind) (s4 : HookSt) (gs : List Tensor)
    (hg : rt.computeGradients model.root (engineWeights rt layers model.weights)
      (formatInput args.inputs) args.target = .ok gs) :
    layerLrpStage3 rt model layerIdx args layers s4 = layerLrpFinish rt model layerIdx args layers s4 gs := by
  rw [layerLrpStage3, hg]

/-- Specification-side restatement of the per-layer fallback of
LRP._select_layer_output: each layer contributes its own recorded relevance
when it has one and otherwise repeats the nearest upstream entry. -/
def fallbackSeq (prev : Tensor) : List (Option Tensor) → List Tensor
  | [] => []
  | some t :: rest => t :: fallbackSeq t rest
  | none :: rest => prev :: fallbackSeq prev rest

theorem getLastD_append_singleton (l : List Tensor) (a d : Tensor) :
    (l ++ [a]).getLastD d = a := by
  rw [List.getLastD_eq_getLast?, List.getLast?_concat]
  rfl

theorem selectAll_eq_fallback (recorded : List (Option Tensor)) :
    ∀ rels, selectAll rels recorded = rels ++ fallbackSeq (rels.getLastD []) recorded := by
  induction recorded with
  | nil =>
    intro rels
    rw [selectAll, List.foldl_nil, fallbackSeq, List.append_nil]
  | cons o rest ih =>
    intro rels
    rw [selectAll, List.foldl_cons]
    have hstep : List.foldl (fun acc o => acc ++ [o.getD (acc.getLastD [])])
        (rels ++ [o.getD (rels.getLastD [])]) rest =
        selectAll (rels ++ [o.getD (rels.getLastD [])]) rest := rfl
    rw [hstep, ih]
    rw [getLastD_append_singleton]
    cases o with
    | some t =>
      rw [fallbackSeq]
      simp [Option.getD]
    | none =>
      rw [fallbackSeq]
      simp [Option.getD]

theorem fallbackSeq_length (recorded : List (Option Tensor)) :
    ∀ prev, (fallbackSeq prev recorded).length = recorded.length := by
  induction recorded with
  | nil =>
    intro prev
    rfl
  | cons o rest ih =>
    intro prev
    cases o with
    | some t => rw [fallbackSeq, List.length_cons, ih, List.length_cons]
    | none => rw [fallbackSeq, List.length_cons, ih, List.length_cons]

theorem selectAll_length (rels : List Tensor) (recorded : List (Option Tensor)) :
    (selectAll rels recorded).length = rels.length + recorded.length := by
  rw [selectAll_eq_fallback, List.length_append, fallbackSeq_length]

theorem fallbackSeq_get (recorded : List (Option Tensor)) :
    ∀ (j : Nat) (prev t : Tensor), recorded[j]? = some (some t) →
      (fallbackSeq prev recorded)[j]? = some t := by
  induction recorded with
  | nil =>
    intro j prev t h
    simp at h
  | cons o rest ih =>
    intro j prev t h
    cases j with
    | zero =>
      rw [List.getElem?_cons_zero] at h
      cases h
      rw [fallbackSeq]
      exact List.getElem?_cons_zero
    | succ n =>
      rw [List.getElem?_cons_succ] at h
      cases o with
      | some t2 =>
        rw [fallbackSeq, List.getElem?_cons_succ]
        exact ih n t2 t h
      | none =>
        rw [fallbackSeq, List.getElem?_cons_succ]
        exact ih n prev t h

theorem selectAll_get (rels : List Tensor) (recorded : List (Option Tensor))
    (j : Nat) (t : Tensor) (h : recorded[j]? = some (some t)) :
    (selectAll rels recorded)[rels.length + j]? = some t := by
  rw [selectAll_eq_fallback]
  rw [List.getElem?_append_right (by omega)]
  have : rels.length + j - rels.length = j := by omega
  rw [this]
  exact fallbackSeq_get recorded j _ t h

theorem recordedRelevances_get (rt : Runtime) (root : PyModule) (w : List ℤ)
    (xs : List Tensor) (tg : Option Nat) (layers : List LayerKind) (i : Nat)
    (hi : i < layers.length)
    (hk : (SUPPORTED_LINEAR_LAYERS (layers.getD i .relu)).isSome = true) :
    (recordedRelevances rt root w xs tg true layers)[i]? =
      some (some (rt.layerRelevance root w xs tg i)) := by
  rw [recordedRelevances]
  simp only [List.getElem?_map, List.getElem?_range hi, Option.map_some, Option.map_some,
    Bool.true_and]
  simp only [Option.map]
  rw [if_pos hk]

theorem emul_shape (a : Tensor) :
    ∀ b : Tensor, Tensor.shape a = Tensor.shape b → Tensor.shape (emul a b) = Tensor.shape b := by
  induction a with
  | nil =>
    intro b h
    cases b with
    | nil => rfl
    | cons rb b2 => simp [Tensor.shape] at h
  | cons ra a2 ih =>
    intro b h
    cases b with
    | nil => simp [Tensor.shape] at h
    | cons rb b2 =>
      simp only [Tensor.shape, List.map_cons, List.cons.injEq] at h
      obtain ⟨hrow, hrest⟩ := h
      simp only [emul, List.zipWith_cons_cons, Tensor.shape, List.map_cons, List.cons.injEq]
      constructor
      · rw [List.length_zipWith, hrow, Nat.min_self]
      · exact ih b2 hrest

theorem scaleByOutput_shape (t : Tensor) :
    ∀ s : List ℤ, t.length ≤ s.length → Tensor.shape (scaleByOutput t s) = Tensor.shape t := by
  induction t with
  | nil =>
    intro s _
    cases s <;> rfl
  | cons row t2 ih =>
    intro s hlen
    cases s with
    | nil => simp at hlen
    | cons c s2 =>
      simp only [List.length_cons, Nat.add_le_add_iff_right] at hlen
      simp only [scaleByOutput, List.zipWith_cons_cons, Tensor.shape, List.map_cons,
        List.cons.injEq, List.length_map]
      exact ⟨trivial, ih s2 hlen⟩

theorem lrpRels_shapes (out : List ℤ) (gs : List Tensor) :
    ∀ xs : List Tensor,
      List.Forall₂ (fun g x => Tensor.shape g = Tensor.shape x) gs xs →
      (∀ x ∈ xs, List.length x ≤ out.length) →
      List.Forall₂ (fun r x => Tensor.shape r = Tensor.shape x)
        (List.zipWith (fun g x => scaleByOutput (emul g x) out) gs xs) xs := by
  induction gs with
  | nil =>
    intro xs h _
    cases h
    exact List.Forall₂.nil
  | cons g gs2 ih =>
    intro xs h hout
    cases h with
    | cons hgx hrest =>
      rename_i x xs2
      rw [List.zipWith_cons_cons]
      apply List.Forall₂.cons
      · have hx : x.length ≤ out.length := hout x (by simp)
        have hlen : (emul g x).length ≤ out.length := by
          have : Tensor.shape (emul g x) = Tensor.shape x := emul_shape g x hgx
          have hl : (emul g x).length = x.length := by
            have := congrArg List.length this
            simpa [Tensor.shape] using this
          omega
        rw [scaleByOutput_shape (emul g x) out hlen]
        exact emul_shape g x hgx
      · exact ih xs2 hrest (fun x hx => hout x (by simp [hx]))

/-- The sequence of per-layer relevances an attribute result carries in the
return_for_all_layers mode: the Python list inside the returned value. -/
def pyReturnedSequence : Except String (PyVal × Option ℤ) → Option (List Tensor)
  | .ok (.pyList l, _) => some l
  | .ok (.tuple [.pyList l], _) => some l
  | _ => none

/-- The length of the returned tuple, when the returned value is a tuple. -/
def pyTupleLen : PyVal → Option Nat
  | .tuple l => some l.length
  | _ => none

/-- A concrete external runtime for witnessing theorems on concrete runs:
the forward output is each example row sum of the first input plus the weight
sum, gradients fill each input with the weight sum, the recorded relevance of
layer i is the one-entry batch holding i plus the weight sum, and the weight
pass increments every weight. -/
def rtEx : Runtime :=
  { runForward := fun _ w xs _ => (xs.headD []).map (fun row => row.sum + w.sum)
    computeGradients := fun _ w xs _ =>
      .ok (xs.map (fun t => t.map (fun row => row.map (fun _ => w.sum))))
    layerRelevance := fun _ w _ _ i => [[(i : ℤ) + w.sum]]
    manipulateWeights := fun w => w.map (fun x => x + 1)
    layerOutputShape := fun _ _ _ => [1] }

/-- A concrete model: a container whose leaves are a linear layer followed by
a ReLU activation, with weight vector holding the single weight 1. -/
def mEx : Model := ⟨.mk .linear [.mk .linear [], .mk .relu []], [1]⟩

theorem getLayers_mEx : getLayers mEx.root = .ok [.linear, .relu] := by
  simp only [getLayers, mEx, PyModule.children, getLayersList]
  rfl

/-- Claim C1: for every input and target, the attributions the base engine
returns equal the raw per-input gradients from the differentiation runtime
multiplied element-wise by the corresponding input tensor and by the model
output, and the layer-scoped variant computes its input-level relevances as
the raw gradient multiplied element-wise by the input, with no output factor. -/
theorem claim1_gradient_input_output_identity
    (rt : Runtime) (model : Model) (args : AttrArgs) (layers : List LayerKind)
    (gs : List Tensor) (layerIdx : Nat)
    (hL : getLayers model.root = .ok layers)
    (hSafe : activationSafe none layers = true)
    (hrfa : args.returnForAllLayers = false)
    (hrcd : args.returnConvergenceDelta = false)
    (hg : rt.computeGradients model.root (engineWeights rt layers model.weights)
      (formatInput args.inputs) args.target = .ok gs) :
    (lrpAttribute rt model args).result =
      .ok (formatAttributions args.inputs.isTuple
        ((List.zipWith (fun g x => scaleByOutput (emul g x)
            (rt.runForward model.root model.weights (formatInput args.inputs) args.target))
          gs (formatInput args.inputs)).map PyVal.tensor), none) ∧
    (layerLrpAttribute rt model layerIdx args).inputLevelRelevances =
      List.zipWith (fun g x => emul g x) gs (formatInput args.inputs) := by
  obtain ⟨s4, hreg⟩ := registerForwardHooksAux_ok args.returnForAllLayers layers none
    (hooksAfterWeightPass layers) hSafe
  constructor
  · rw [lrpAttribute_layers rt model args layers hL,
      lrpStage2_ok rt model args layers s4 _ hreg,
      lrpStage3_ok rt model args layers s4 gs hg]
    simp only [lrpFinish, lrpSel, lrpRels, selectLayerOutput, hrfa, hrcd,
      Bool.false_eq_true, if_false]
  · rw [layerLrpAttribute_layers rt model layerIdx args layers hL,
      layerLrpStage2_ok rt model layerIdx args layers s4 _ hreg,
      layerLrpStage3_ok rt model layerIdx args layers s4 gs hg]
    unfold layerLrpFinish
    dsimp only
    split
    · rw [layerLrpRels]
    · rw [layerLrpRels]

/-- Witness for claim C1 on a concrete run: a linear-then-ReLU model with
weight 1, a single 1-example input with features 3 and 4, no target. The
engine copy weights become 2 after the weight pass, the raw gradient fills
the input shape with 2, the pre-pass output is 3 + 4 + 1 = 8, so the base
attribution is the tensor with entries 48 and 64 and the layer-scoped
input-level relevance has entries 6 and 8. -/
theorem claim1_witness :
    (lrpAttribute rtEx mEx ⟨.single [[3, 4]], none, false, false⟩).result =
      .ok (.tensor [[48, 64]], none) ∧
    (layerLrpAttribute rtEx mEx 0 ⟨.single [[3, 4]], none, false, false⟩).inputLevelRelevances =
      [[[6, 8]]] :=
  claim1_gradient_input_output_identity rtEx mEx ⟨.single [[3, 4]], none, false, false⟩
    [.linear, .relu] [[[2, 2]]] 0 getLayers_mEx (by rfl) (by rfl) (by rfl) (by rfl)

/-- A concrete model whose only leaf layer is linear, with weight 1. -/
def m3 : Model := ⟨.mk .linear [.mk .linear []], [1]⟩

theorem getLayers_m3 : getLayers m3.root = .ok [.linear] := by
  simp only [getLayers, m3, PyModule.children, getLayersList]
  rfl

/-- A concrete model whose first leaf layer in traversal order is a ReLU
activation, followed by a linear layer. -/
def mRelu : Model := ⟨.mk .linear [.mk .relu [], .mk .linear []], [1]⟩

theorem getLayers_mRelu : getLayers mRelu.root = .ok [.relu, .linear] := by
  simp only [getLayers, mRelu, PyModule.children, getLayersList]
  rfl

/-- Claim C8: the rule registry assigns the Alpha1-Beta0 rule to convolution
and dense layers, the epsilon rule to max-pooling, average-pooling,
adaptive-average-pooling and batch-normalization layers, and handles ReLU
activation layers as backward pass-through with no redistribution rule of
their own: the registry holds no entry for ReLU and hook registration
installs only a backward pass-through hook there. -/
theorem claim8_rule_registry :
    SUPPORTED_LINEAR_LAYERS .conv2d = some .alpha1Beta0Rule ∧
    SUPPORTED_LINEAR_LAYERS .linear = some .alpha1Beta0Rule ∧
    SUPPORTED_LINEAR_LAYERS .maxPool2d = some .epsilonRule ∧
    SUPPORTED_LINEAR_LAYERS .avgPool2d = some .epsilonRule ∧
    SUPPORTED_LINEAR_LAYERS .adaptiveAvgPool2d = some .epsilonRule ∧
    SUPPORTED_LINEAR_LAYERS .batchNorm2d = some .epsilonRule ∧
    SUPPORTED_LINEAR_LAYERS .relu = none ∧
    SUPPORTED_NON_LINEAR_LAYERS = [.relu] ∧
    (∀ (rfa : Bool) (rk : RuleKind) (rest : List LayerKind) (s : HookSt),
      registerForwardHooksAux rfa (some rk) (.relu :: rest) s =
        registerForwardHooksAux rfa (some rk) rest
          (registerHook s (.activationPassthrough rk) true)) := by
  refine ⟨rfl, rfl, rfl, rfl, rfl, rfl, rfl, rfl, ?_⟩
  intro rfa rk rest s
  rfl

/-- Claim C10: the backward pass-through hook registered on an activation
layer is the bound method of the rule instance created for the most recent
preceding redistribution-rule layer in traversal order, and when the first
leaf layer is an activation layer (no rule layer precedes it) hook
registration in attribute fails with an unbound-local-variable error. -/
theorem claim10_passthrough_uses_preceding_rule :
    (∀ (rt : Runtime) (model : Model) (args : AttrArgs) (rest : List LayerKind),
      getLayers model.root = .ok (.relu :: rest) →
      (lrpAttribute rt model args).result = .error unboundLocalMsg) ∧
    (∀ (rfa : Bool) (rest : List LayerKind) (s : HookSt),
      registerForwardHooksAux rfa none (.relu :: rest) s = .error (s, unboundLocalMsg)) ∧
    (∀ (rfa : Bool) (pre post : List LayerKind) (s0 s : HookSt) (rk : RuleKind),
      registerForwardHooksAux rfa none pre s0 = .ok (s, some rk) →
      registerForwardHooksAux rfa none (pre ++ .relu :: post) s0 =
        registerForwardHooksAux rfa (some rk) post
          (registerHook s (.activationPassthrough rk) true)) ∧
    (∀ (rfa : Bool) (pre : List LayerKind) (s0 s : HookSt) (r0 r2 : Option RuleKind),
      registerForwardHooksAux rfa r0 pre s0 = .ok (s, r2) → r2 = lastRuleOf r0 pre) := by
  have hstep : ∀ (rfa : Bool) (rest : List LayerKind) (s : HookSt),
      registerForwardHooksAux rfa none (.relu :: rest) s = .error (s, unboundLocalMsg) := by
    intro rfa rest s
    rfl
  refine ⟨?_, hstep, ?_, ?_⟩
  · intro rt model args rest hL
    rw [lrpAttribute_layers rt model args (.relu :: rest) hL]
    rw [lrpStage2, hstep]
  · intro rfa pre post s0 s rk h
    rw [registerForwardHooksAux_append, h]
    rfl
  · intro rfa pre s0 s r0 r2 h
    exact registerForwardHooksAux_snd rfa pre r0 s0 s r2 h

/-- Witness for claim C10: a model whose first leaf is a ReLU makes attribute
fail with the unbound-local error; with a linear layer in front, the
pass-through hook closes over that preceding Alpha1-Beta0 rule instance. -/
theorem claim10_witness :
    (lrpAttribute rtEx mRelu ⟨.single [[1]], none, false, false⟩).result =
      .error unboundLocalMsg ∧
    registerForwardHooksAux false none [.relu] initHookSt =
      .error (initHookSt, unboundLocalMsg) ∧
    registerForwardHooksAux false none ([.linear] ++ [.relu]) initHookSt =
      registerForwardHooksAux false (some .alpha1Beta0Rule) []
        (registerHook (registerHook initHookSt (.forwardRule .alpha1Beta0Rule) false)
          (.activationPassthrough .alpha1Beta0Rule) true) ∧
    (some RuleKind.alpha1Beta0Rule : Option RuleKind) = lastRuleOf none [.linear, .relu] :=
  ⟨claim10_passthrough_uses_preceding_rule.1 rtEx mRelu
      ⟨.single [[1]], none, false, false⟩ [.linear] getLayers_mRelu,
    claim10_passthrough_uses_preceding_rule.2.1 false [] initHookSt,
    claim10_passthrough_uses_preceding_rule.2.2.1 false [.linear] [] initHookSt
      (registerHook initHookSt (.forwardRule .alpha1Beta0Rule) false) .alpha1Beta0Rule (by rfl),
    claim10_passthrough_uses_preceding_rule.2.2.2 false [.linear, .relu] initHookSt
      (registerHook (registerHook initHookSt (.forwardRule .alpha1Beta0Rule) false)
        (.activationPassthrough .alpha1Beta0Rule) true) none (some .alpha1Beta0Rule) (by rfl)⟩

/-- A concrete model whose leaves are a linear layer and a sigmoid layer. -/
def mSig : Model := ⟨.mk .linear [.mk .linear [], .mk .sigmoid []], [1]⟩

theorem leafKinds_mSig : leafKinds mSig.root = [.linear, .sigmoid] := by
  simp only [leafKinds, mSig, PyModule.children, leafKindsList]

/-- Claim C5: for every model whose traversed leaf layers include a sigmoid
or tanh activation, and for every input, both engine construction and the
attribute call of either engine raise the TypeError of the traversal before
any hook is installed and before any computation, with no partial result. -/
theorem claim5_sigmoid_tanh_rejected
    (rt : Runtime) (model : Model) (layerIdx : Nat) (args : AttrArgs)
    (h : LayerKind.sigmoid ∈ leafKinds model.root ∨ LayerKind.tanh ∈ leafKinds model.root) :
    lrpInit model = .error invalidActivationMsg ∧
    (lrpAttribute rt model args).result = .error invalidActivationMsg ∧
    (lrpAttribute rt model args).hookSt.active = [] ∧
    (layerLrpAttribute rt model layerIdx args).result = .error invalidActivationMsg ∧
    (layerLrpAttribute rt model layerIdx args).hookSt.active = [] := by
  have hGL : getLayers model.root = .error invalidActivationMsg :=
    getLayersList_error model.root.children h
  refine ⟨hGL, ?_, ?_, ?_, ?_⟩
  · rw [lrpAttribute_error rt model args invalidActivationMsg hGL]
  · rw [lrpAttribute_error rt model args invalidActivationMsg hGL]
    rfl
  · rw [layerLrpAttribute_error rt model layerIdx args invalidActivationMsg hGL]
  · rw [layerLrpAttribute_error rt model layerIdx args invalidActivationMsg hGL]
    rfl

/-- Witness for claim C5: a model holding a linear leaf and a sigmoid leaf is
rejected by construction and by both attribute entry points, with no hook
left installed. -/
theorem claim5_witness :
    (LayerKind.sigmoid ∈ leafKinds mSig.root ∨ LayerKind.tanh ∈ leafKinds mSig.root) ∧
    (lrpInit mSig = .error invalidActivationMsg ∧
      (lrpAttribute rtEx mSig ⟨.single [[1]], none, false, false⟩).result =
        .error invalidActivationMsg ∧
      (lrpAttribute rtEx mSig ⟨.single [[1]], none, false, false⟩).hookSt.active = [] ∧
      (layerLrpAttribute rtEx mSig 0 ⟨.single [[1]], none, false, false⟩).result =
        .error invalidActivationMsg ∧
      (layerLrpAttribute rtEx mSig 0 ⟨.single [[1]], none, false, false⟩).hookSt.active = []) :=
  have h : LayerKind.sigmoid ∈ leafKinds mSig.root ∨ LayerKind.tanh ∈ leafKinds mSig.root := by
    rw [leafKinds_mSig]
    exact Or.inl (by decide)
  ⟨h, claim5_sigmoid_tanh_rejected rtEx mSig 0 ⟨.single [[1]], none, false, false⟩ h⟩

/-- Claim C6: for every attribute call of either engine, the caller model is
unchanged when the call returns: the engine works on a deep copy, so every
weight change and transient relevance stash happens on the copy only. -/
theorem claim6_caller_model_unchanged
    (rt : Runtime) (model : Model) (layerIdx : Nat) (args : AttrArgs) :
    (lrpAttribute rt model args).callerModel = model ∧
    (layerLrpAttribute rt model layerIdx args).callerModel = model := by
  constructor
  · unfold lrpAttribute
    split
    · rfl
    · unfold lrpStage2
      split
      · rfl
      · unfold lrpStage3
        split
        · rfl
        · unfold lrpFinish
          rfl
  · unfold layerLrpAttribute
    split
    · rfl
    · unfold layerLrpStage2
      split
      · rfl
      · unfold layerLrpStage3
        split
        · rfl
        · unfold layerLrpFinish
          dsimp only
          split <;> rfl

/-- The amended claim C7: on every attribute invocation that returns a
result, every interception handle created during the invocation has been
removed before the return; on the path where gradient computation fails the
exception propagates with the handles still installed (the source wraps no
cleanup handler around the gradient request). -/
theorem claim7_amended_hooks_released_on_return
    (rt : Runtime) (model : Model) (args : AttrArgs) (v : PyVal × Option ℤ)
    (hok : (lrpAttribute rt model args).result = .ok v) :
    (lrpAttribute rt model args).hookSt.active = [] := by
  cases hL : getLayers model.root with
  | error e =>
    rw [lrpAttribute_error rt model args e hL] at hok
    cases hok
  | ok layers =>
    rw [lrpAttribute_layers rt model args layers hL] at hok ⊢
    cases hreg : registerForwardHooksAux args.returnForAllLayers none layers
        (hooksAfterWeightPass layers) with
    | error p =>
      obtain ⟨sErr, e⟩ := p
      rw [lrpStage2_error rt model args layers sErr e hreg] at hok
      cases hok
    | ok p =>
      obtain ⟨s4, r2⟩ := p
      rw [lrpStage2_ok rt model args layers s4 r2 hreg] at hok ⊢
      cases hg : rt.computeGradients model.root (engineWeights rt layers model.weights)
          (formatInput args.inputs) args.target with
      | error e =>
        rw [lrpStage3_error rt model args layers s4 e hg] at hok
        cases hok
      | ok gs =>
        rw [lrpStage3_ok rt model args layers s4 gs hg]
        rw [lrpFinish]
        exact hookInv_teardown_empty s4
          (hookInv_registerForwardHooksAux args.returnForAllLayers layers none
            (hooksAfterWeightPass layers) s4 r2 (hookInv_afterWeightPass layers) hreg)

/-- The concrete runtime whose gradient computation fails. -/
def rtFail : Runtime :=
  { rtEx with computeGradients := fun _ _ _ _ => .error "RuntimeError: grad failed" }

/-- Counterexample to claim C7: on the concrete linear-then-ReLU model, when
gradient computation fails, the attribute invocation propagates the failure
while the hooks installed by the invocation are still active, so not every
interception handle is removed on every exit path. -/
theorem claim7_counterexample :
    (lrpAttribute rtFail mEx ⟨.single [[3, 4]], none, false, false⟩).result =
      .error "RuntimeError: grad failed" ∧
    (lrpAttribute rtFail mEx ⟨.single [[3, 4]], none, false, false⟩).hookSt.active ≠ [] := by
  constructor
  · rw [lrpAttribute_layers rtFail mEx ⟨.single [[3, 4]], none, false, false⟩
      [.linear, .relu] getLayers_mEx]
    rfl
  · rw [lrpAttribute_layers rtFail mEx ⟨.single [[3, 4]], none, false, false⟩
      [.linear, .relu] getLayers_mEx]
    decide

/-- Witness for the amended claim C7 on a concrete successful run: the call
returns a result and its final hook state holds no active registration. -/
theorem claim7_witness :
    (lrpAttribute rtEx mEx ⟨.single [[3, 4]], none, false, false⟩).result =
      .ok (.tensor [[48, 64]], none) ∧
    (lrpAttribute rtEx mEx ⟨.single [[3, 4]], none, false, false⟩).hookSt.active = [] :=
  have hok : (lrpAttribute rtEx mEx ⟨.single [[3, 4]], none, false, false⟩).result =
      .ok (.tensor [[48, 64]], none) := by
    rw [lrpAttribute_layers rtEx mEx ⟨.single [[3, 4]], none, false, false⟩
      [.linear, .relu] getLayers_mEx]
    rfl
  ⟨hok, claim7_amended_hooks_released_on_return rtEx mEx
    ⟨.single [[3, 4]], none, false, false⟩ (.tensor [[48, 64]], none) hok⟩

/-- Claim C2, evaluated at the failing input: on a two-example batch the
engine returns one scalar delta, the total forward-output sum minus the
total attribution sum over the whole batch, while the per-example
conservation deltas of the two examples are two different values, so the
returned delta is not the per-example tensor the claim (and the source
docstring of compute_convergence_delta) describes. -/
theorem claim2_delta_is_one_scalar_not_per_example :
    (lrpAttribute rtEx mEx ⟨.single [[3, 4], [5, 6]], none, true, false⟩).result =
      .ok (.tensor [[48, 64], [120, 144]], some (-354)) ∧
    List.zipWith (fun o r => o - r)
      (rtEx.runForward mEx.root (engineWeights rtEx [.linear, .relu] mEx.weights)
        [[[3, 4], [5, 6]]] none)
      (([[48, 64], [120, 144]] : Tensor).map List.sum) = [-103, -251] ∧
    ((-354 : ℤ) ≠ -103 ∧ (-354 : ℤ) ≠ -251) := by
  refine ⟨?_, by decide, by decide, by decide⟩
  rw [lrpAttribute_layers rtEx mEx ⟨.single [[3, 4], [5, 6]], none, true, false⟩
    [.linear, .relu] getLayers_mEx]
  rfl

theorem recordedRelevances_length (rt : Runtime) (root : PyModule) (w : List ℤ)
    (xs : List Tensor) (tg : Option Nat) (rfa : Bool) (layers : List LayerKind) :
    (recordedRelevances rt root w xs tg rfa layers).length = layers.length := by
  rw [recordedRelevances, List.length_map, List.length_range]

/-- Counterexample to claim C3: on a model with one traversed leaf layer and
a two-tensor tuple input, the return_for_all_layers sequence has three
entries, not the one-plus-one the claim states: the sequence always starts
with one entry per input tensor, not with a single input-level entry. -/
theorem claim3_counterexample :
    pyReturnedSequence
        (lrpAttribute rtEx m3 ⟨.tuple [[[1]], [[2]]], none, false, true⟩).result =
      some [[[4]], [[8]], [[2]]] ∧
    getLayers m3.root = .ok [.linear] ∧
    ([[[4]], [[8]], [[2]]] : List Tensor).length ≠ [LayerKind.linear].length + 1 := by
  refine ⟨?_, getLayers_m3, by decide⟩
  rw [lrpAttribute_layers rtEx m3 ⟨.tuple [[[1]], [[2]]], none, false, true⟩
    [.linear] getLayers_m3]
  rfl

/-- The amended claim C3: with return_for_all_layers and no convergence
delta requested, the returned sequence has one entry per input tensor
followed by one entry per traversed leaf layer in traversal order (so its
length is the number of leaf layers plus the number of input tensors, which
is plus one exactly when the input is a single tensor), and each layer entry
is the layer relevance attribute when the layer has one, else the nearest
upstream entry; when a convergence delta is also requested the call returns
no sequence at all: it raises the TypeError of summing the Python list. -/
theorem claim3_amended_sequence_structure
    (rt : Runtime) (model : Model) (args : AttrArgs) (layers : List LayerKind)
    (gs : List Tensor)
    (hL : getLayers model.root = .ok layers)
    (hSafe : activationSafe none layers = true)
    (hrfa : args.returnForAllLayers = true)
    (hlen : gs.length = (formatInput args.inputs).length)
    (hg : rt.computeGradients model.root (engineWeights rt layers model.weights)
      (formatInput args.inputs) args.target = .ok gs) :
    (args.returnConvergenceDelta = false →
      pyReturnedSequence (lrpAttribute rt model args).result =
        some (selectAll (lrpRels rt model args gs)
          (recordedRelevances rt model.root (engineWeights rt layers model.weights)
            (formatInput args.inputs) args.target true layers)) ∧
      (selectAll (lrpRels rt model args gs)
          (recordedRelevances rt model.root (engineWeights rt layers model.weights)
            (formatInput args.inputs) args.target true layers)).length =
        (formatInput args.inputs).length + layers.length ∧
      selectAll (lrpRels rt model args gs)
          (recordedRelevances rt model.root (engineWeights rt layers model.weights)
            (formatInput args.inputs) args.target true layers) =
        lrpRels rt model args gs ++
          fallbackSeq ((lrpRels rt model args gs).getLastD [])
            (recordedRelevances rt model.root (engineWeights rt layers model.weights)
              (formatInput args.inputs) args.target true layers)) ∧
    (args.returnConvergenceDelta = true →
      (lrpAttribute rt model args).result = .error listSumTypeErrorMsg) := by
  obtain ⟨s4, hreg⟩ := registerForwardHooksAux_ok args.returnForAllLayers layers none
    (hooksAfterWeightPass layers) hSafe
  constructor
  · intro hrcd
    refine ⟨?_, ?_, selectAll_eq_fallback _ _⟩
    · rw [lrpAttribute_layers rt model args layers hL,
        lrpStage2_ok rt model args layers s4 _ hreg,
        lrpStage3_ok rt model args layers s4 gs hg]
      simp only [lrpFinish, lrpSel, selectLayerOutput, hrfa, if_true, hrcd,
        Bool.false_eq_true, if_false]
      cases hins : args.inputs with
      | single t => rfl
      | tuple ts => rfl
    · rw [selectAll_length, recordedRelevances_length]
      have hrels : (lrpRels rt model args gs).length = (formatInput args.inputs).length := by
        rw [lrpRels, List.length_zipWith, hlen, Nat.min_self]
      rw [hrels]
  · intro hrcd
    rw [lrpAttribute_layers rt model args layers hL,
      lrpStage2_ok rt model args layers s4 _ hreg,
      lrpStage3_ok rt model args layers s4 gs hg]
    simp only [lrpFinish, lrpSel, selectLayerOutput, hrfa, if_true, hrcd]
    rfl

/-- Witness for the amended claim C3 on concrete runs: the linear-then-ReLU
model on a single one-example input gives the three-entry sequence input
relevance, linear-layer relevance, and the ReLU entry repeating the linear
entry upstream of it; the same call with a convergence delta requested
raises the TypeError of summing the Python list. -/
theorem claim3_witness :
    (pyReturnedSequence
        (lrpAttribute rtEx mEx ⟨.single [[3, 4]], none, false, true⟩).result =
      some [[[48, 64]], [[2]], [[2]]] ∧
    ([[[48, 64]], [[2]], [[2]]] : List Tensor).length = 1 + 2 ∧
    ([[[48, 64]], [[2]], [[2]]] : List Tensor) =
      [[[48, 64]]] ++ fallbackSeq [[48, 64]] [some [[2]], none]) ∧
    (lrpAttribute rtEx mEx ⟨.single [[3, 4]], none, true, true⟩).result =
      .error listSumTypeErrorMsg :=
  ⟨(claim3_amended_sequence_structure rtEx mEx ⟨.single [[3, 4]], none, false, true⟩
      [.linear, .relu] [[[2, 2]]] getLayers_mEx (by rfl) (by rfl) (by rfl) (by rfl)).1 rfl,
    (claim3_amended_sequence_structure rtEx mEx ⟨.single [[3, 4]], none, true, true⟩
      [.linear, .relu] [[[2, 2]]] getLayers_mEx (by rfl) (by rfl) (by rfl) (by rfl)).2 rfl⟩

/-- Counterexample to claim C9: a call with a two-tensor tuple input and
return_for_all_layers true returns a one-element tuple holding a Python
list, not a tuple of two attribution tensors shaped like the inputs. -/
theorem claim9_counterexample :
    (lrpAttribute rtEx m3 ⟨.tuple [[[1]], [[2]]], none, false, true⟩).result =
      .ok (.tuple [.pyList [[[4]], [[8]], [[2]]]], none) ∧
    pyTupleLen (.tuple [.pyList [[[4]], [[8]], [[2]]]]) = some 1 ∧
    ([[[1]], [[2]]] : List Tensor).length = 2 ∧ (1 : Nat) ≠ 2 := by
  refine ⟨?_, by decide, by decide, by decide⟩
  rw [lrpAttribute_layers rtEx m3 ⟨.tuple [[[1]], [[2]]], none, false, true⟩
    [.linear] getLayers_m3]
  rfl

/-- The amended claim C9: when return_for_all_layers is false, a single
input returns a single tensor and a tuple input returns a tuple with one
attribution tensor per input (the formatting helper applied to the per-input
relevance list), each attribution tensor shaped identically to the
corresponding input; when return_for_all_layers is true the call returns the
per-layer sequence instead. -/
theorem claim9_amended_shape_invariance
    (rt : Runtime) (model : Model) (args : AttrArgs) (layers : List LayerKind)
    (gs : List Tensor)
    (hL : getLayers model.root = .ok layers)
    (hSafe : activationSafe none layers = true)
    (hrfa : args.returnForAllLayers = false)
    (hrcd : args.returnConvergenceDelta = false)
    (hlen : gs.length = (formatInput args.inputs).length)
    (hshapes : List.Forall₂ (fun g x => Tensor.shape g = Tensor.shape x) gs
      (formatInput args.inputs))
    (hout : ∀ x ∈ formatInput args.inputs, List.length x ≤
      (rt.runForward model.root model.weights (formatInput args.inputs) args.target).length)
    (hg : rt.computeGradients model.root (engineWeights rt layers model.weights)
      (formatInput args.inputs) args.target = .ok gs) :
    (lrpAttribute rt model args).result =
      .ok (formatAttributions args.inputs.isTuple
        ((lrpRels rt model args gs).map PyVal.tensor), none) ∧
    List.Forall₂ (fun r x => Tensor.shape r = Tensor.shape x)
      (lrpRels rt model args gs) (formatInput args.inputs) ∧
    (lrpRels rt model args gs).length = (formatInput args.inputs).length := by
  obtain ⟨s4, hreg⟩ := registerForwardHooksAux_ok args.returnForAllLayers layers none
    (hooksAfterWeightPass layers) hSafe
  refine ⟨?_, ?_, ?_⟩
  · rw [lrpAttribute_layers rt model args layers hL,
      lrpStage2_ok rt model args layers s4 _ hreg,
      lrpStage3_ok rt model args layers s4 gs hg]
    simp only [lrpFinish, lrpSel, selectLayerOutput, hrfa, hrcd,
      Bool.false_eq_true, if_false]
  · rw [lrpRels]
    exact lrpRels_shapes
      (rt.runForward model.root model.weights (formatInput args.inputs) args.target)
      gs (formatInput args.inputs) hshapes hout
  · rw [lrpRels, List.length_zipWith, hlen, Nat.min_self]

/-- Witness for the amended claim C9 on a concrete run: a single one-example
input with two features returns a single tensor of the same shape. -/
theorem claim9_witness :
    (lrpAttribute rtEx mEx ⟨.single [[3, 4]], none, false, false⟩).result =
      .ok (.tensor [[48, 64]], none) ∧
    List.Forall₂ (fun r x => Tensor.shape r = Tensor.shape x)
      [[[48, 64]]] [[[3, 4]]] ∧
    ([[[48, 64]]] : List Tensor).length = 1 :=
  claim9_amended_shape_invariance rtEx mEx ⟨.single [[3, 4]], none, false, false⟩
    [.linear, .relu] [[[2, 2]]] getLayers_mEx (by rfl) (by rfl) (by rfl) (by rfl)
    (List.Forall₂.cons (by decide) List.Forall₂.nil) (by decide) (by rfl)

/-- Claim C4: with the per-layer bookkeeping installed (the layer has a rule
and return_for_all_layers bookkeeping is on, as the spec requires for the
layer-scoped variant), LayerLRP.attribute at a designated layer returns
exactly the relevance tensor recorded on that layer, the base engine with
return_for_all_layers true carries the same tensor at the corresponding
sequence position (one entry per input tensor first, then one per layer),
and that tensor is shaped like the layer output whenever the runtime records
output-shaped relevances. -/
theorem claim4_layer_scoped_matches_base
    (rt : Runtime) (model : Model) (layerIdx : Nat) (args : AttrArgs)
    (layers : List LayerKind) (gs : List Tensor)
    (hL : getLayers model.root = .ok layers)
    (hSafe : activationSafe none layers = true)
    (hrfa : args.returnForAllLayers = true)
    (hrcd : args.returnConvergenceDelta = false)
    (hlt : layerIdx < layers.length)
    (hk : (SUPPORTED_LINEAR_LAYERS (layers.getD layerIdx .relu)).isSome = true)
    (hlen : gs.length = (formatInput args.inputs).length)
    (hg : rt.computeGradients model.root (engineWeights rt layers model.weights)
      (formatInput args.inputs) args.target = .ok gs)
    (hshape : Tensor.shape (rt.layerRelevance model.root
        (engineWeights rt layers model.weights) (formatInput args.inputs)
        args.target layerIdx) =
      rt.layerOutputShape model.root (formatInput args.inputs) layerIdx) :
    (layerLrpAttribute rt model layerIdx args).result =
      .ok (.tensor (rt.layerRelevance model.root (engineWeights rt layers model.weights)
        (formatInput args.inputs) args.target layerIdx), none) ∧
    (pyReturnedSequence (lrpAttribute rt model args).result).bind
        (fun L => L[(formatInput args.inputs).length + layerIdx]?) =
      some (rt.layerRelevance model.root (engineWeights rt layers model.weights)
        (formatInput args.inputs) args.target layerIdx) ∧
    Tensor.shape (rt.layerRelevance model.root (engineWeights rt layers model.weights)
        (formatInput args.inputs) args.target layerIdx) =
      rt.layerOutputShape model.root (formatInput args.inputs) layerIdx := by
  obtain ⟨s4, hreg⟩ := registerForwardHooksAux_ok args.returnForAllLayers layers none
    (hooksAfterWeightPass layers) hSafe
  have hrecElem : (recordedRelevances rt model.root (engineWeights rt layers model.weights)
      (formatInput args.inputs) args.target true layers)[layerIdx]? =
      some (some (rt.layerRelevance model.root (engineWeights rt layers model.weights)
        (formatInput args.inputs) args.target layerIdx)) :=
    recordedRelevances_get rt model.root (engineWeights rt layers model.weights)
      (formatInput args.inputs) args.target layers layerIdx hlt hk
  have hrecGetD : (recordedRelevances rt model.root (engineWeights rt layers model.weights)
      (formatInput args.inputs) args.target true layers).getD layerIdx none =
      some (rt.layerRelevance model.root (engineWeights rt layers model.weights)
        (formatInput args.inputs) args.target layerIdx) := by
    rw [List.getD_eq_getElem?_getD, hrecElem]
    rfl
  refine ⟨?_, ?_, hshape⟩
  · rw [layerLrpAttribute_layers rt model layerIdx args layers hL,
      layerLrpStage2_ok rt model layerIdx args layers s4 _ hreg,
      layerLrpStage3_ok rt model layerIdx args layers s4 gs hg]
    unfold layerLrpFinish
    dsimp only
    rw [hrfa, hrecGetD, hrcd]
    rfl
  · rw [lrpAttribute_layers rt model args layers hL,
      lrpStage2_ok rt model args layers s4 _ hreg,
      lrpStage3_ok rt model args layers s4 gs hg]
    simp only [lrpFinish, lrpSel, selectLayerOutput, hrfa, if_true, hrcd,
      Bool.false_eq_true, if_false]
    have hrels : (lrpRels rt model args gs).length = (formatInput args.inputs).length := by
      rw [lrpRels, List.length_zipWith, hlen, Nat.min_self]
    have hsel : (selectAll (lrpRels rt model args gs)
        (recordedRelevances rt model.root (engineWeights rt layers model.weights)
          (formatInput args.inputs) args.target true layers))[(formatInput args.inputs).length
            + layerIdx]? =
        some (rt.layerRelevance model.root (engineWeights rt layers model.weights)
          (formatInput args.inputs) args.target layerIdx) := by
      rw [← hrels]
      exact selectAll_get _ _ layerIdx _ hrecElem
    cases hins : args.inputs with
    | single t =>
      simp only [Inputs.isTuple, formatAttributions, Bool.false_eq_true, if_false,
        List.headD, pyReturnedSequence, Option.bind]
      rw [hins] at hsel
      exact hsel
    | tuple ts =>
      simp only [Inputs.isTuple, formatAttributions, if_true, pyReturnedSequence, Option.bind]
      rw [hins] at hsel
      exact hsel

/-- Witness for claim C4 on a concrete run: on the linear-then-ReLU model
the layer-scoped engine at layer index 0 returns the recorded tensor with
single entry 2, the base sequence holds the same tensor at position 1 (one
input tensor comes first), and its shape matches the layer output shape. -/
theorem claim4_witness :
    (layerLrpAttribute rtEx mEx 0 ⟨.single [[3, 4]], none, false, true⟩).result =
      .ok (.tensor [[2]], none) ∧
    (pyReturnedSequence
        (lrpAttribute rtEx mEx ⟨.single [[3, 4]], none, false, true⟩).result).bind
      (fun L => L[1 + 0]?) = some [[2]] ∧
    Tensor.shape [[2]] = rtEx.layerOutputShape mEx.root [[[3, 4]]] 0 :=
  claim4_layer_scoped_matches_base rtEx mEx 0 ⟨.single [[3, 4]], none, false, true⟩
    [.linear, .relu] [[[2, 2]]] getLayers_mEx (by rfl) (by rfl) (by rfl) (by decide)
    (by decide) (by rfl) (by rfl) (by decide)

end Captum
